import Mathlib

/-!
Verification development for the supabase-rag document ingestion-and-retrieval
pipeline.  Text-processing functions from `src/lib/actions.ts`,
`src/lib/supabase-functions.ts` (the langchain index module),
`src/unnamed/part_011` (document loaders) and the ingestion route handler
`src/unnamed/part_001` are shallowly embedded over `List Char`.  External
collaborators (the LangChain text splitter, the embedding service, the vector
store RPC, the LLM) are passed in as function parameters, mirroring the spec's
treatment of them as black-box interfaces.

JavaScript regular-expression passes are embedded as character-level scanners.
Each global `String.replace` with a pattern whose components have pairwise
disjoint follow character classes is deterministic (maximal munch is forced),
and is translated to a direct structural scanner; the three patterns of
`preprocessDocumentText` that genuinely need backtracking run on a small
continuation-passing regex engine defined below.  `\s` is modelled as ASCII
whitespace; all concrete inputs used in theorems are ASCII.
-/

namespace SupabaseRag

/-- ASCII model of the JS regex class `\s` (space, tab, newline, carriage
return, vertical tab, form feed). -/
def isSpaceChar (c : Char) : Bool :=
  c = ' ' || c = '\t' || c = '\n' || c = '\r' || c = '\x0b' || c = '\x0c'

/-- The JS regex class `[a-z]`. -/
def isLowerAZ (c : Char) : Bool := 'a' ≤ c && c ≤ 'z'

/-- The JS regex class `[A-Z]`. -/
def isUpperAZ (c : Char) : Bool := 'A' ≤ c && c ≤ 'Z'

/-- The JS regex class `[a-zA-Z]`. -/
def isLetterAZ (c : Char) : Bool := isLowerAZ c || isUpperAZ c

/-- The JS regex class `\d`. -/
def isDigit09 (c : Char) : Bool := '0' ≤ c && c ≤ '9'

/-- The JS regex class `\w` = `[A-Za-z0-9_]`. -/
def isWordChar (c : Char) : Bool := isLetterAZ c || isDigit09 c || c = '_'

/-- The punctuation class `[.?!,;:]` used by the normalizer. -/
def isPunctChar (c : Char) : Bool :=
  c = '.' || c = '?' || c = '!' || c = ',' || c = ';' || c = ':'

/-! ### normalizeDocumentText (src/lib/actions.ts lines 300-321, duplicated in
the utils module at the end of that file)

Each of the seven global replaces is a deterministic scan: after a match the
JS engine resumes immediately after the matched text, which the scanners
reproduce by recursing on the unconsumed suffix. -/

/-- Pass 1: `replace(/([a-z])([A-Z])/g, "$1 $2")`. -/
def fixCamel : List Char → List Char
  | a :: b :: rest =>
    if isLowerAZ a && isUpperAZ b then a :: ' ' :: b :: fixCamel rest
    else a :: fixCamel (b :: rest)
  | s => s

/-- Pass 2: `replace(/([a-zA-Z])([A-Z][a-z])/g, "$1 $2")`. -/
def fixCapsRun : List Char → List Char
  | a :: b :: c :: rest =>
    if isLetterAZ a && isUpperAZ b && isLowerAZ c then
      a :: ' ' :: b :: c :: fixCapsRun rest
    else a :: fixCapsRun (b :: c :: rest)
  | s => s

/-- Pass 3: `replace(/([.?!,;:])([a-zA-Z])/g, "$1 $2")`. -/
def fixPunct : List Char → List Char
  | a :: b :: rest =>
    if isPunctChar a && isLetterAZ b then a :: ' ' :: b :: fixPunct rest
    else a :: fixPunct (b :: rest)
  | s => s

/-- Pass 4: `replace(/([a-zA-Z])(\[)/g, "$1 $2")`. -/
def fixOpenBracket : List Char → List Char
  | a :: b :: rest =>
    if isLetterAZ a && b = '[' then a :: ' ' :: b :: fixOpenBracket rest
    else a :: fixOpenBracket (b :: rest)
  | s => s

/-- Pass 5: `replace(/(\])([a-zA-Z])/g, "$1 $2")`. -/
def fixCloseBracket : List Char → List Char
  | a :: b :: rest =>
    if a = ']' && isLetterAZ b then a :: ' ' :: b :: fixCloseBracket rest
    else a :: fixCloseBracket (b :: rest)
  | s => s

/-- Pass 6: `replace(/([a-zA-Z])-([a-zA-Z])/g, "$1 - $2")`.  The scan resumes
after the matched three characters, exactly like the JS engine (which is what
makes overlapping hyphen patterns such as `a-b-c` match only once). -/
def fixHyphen : List Char → List Char
  | a :: b :: c :: rest =>
    if isLetterAZ a && b = '-' && isLetterAZ c then
      a :: ' ' :: '-' :: ' ' :: c :: fixHyphen rest
    else a :: fixHyphen (b :: c :: rest)
  | s => s

/-- State machine for `replace(/\s{2,}/g, " ")`: when `skipping` the scan is
inside a whitespace run that has already been replaced by a single space. -/
def collapseWsAux : Bool → List Char → List Char
  | _, [] => []
  | true, c :: cs =>
    if isSpaceChar c then collapseWsAux true cs
    else c :: collapseWsAux false cs
  | false, c :: cs =>
    if isSpaceChar c && (cs.head?.any isSpaceChar) then
      ' ' :: collapseWsAux true cs
    else c :: collapseWsAux false cs

/-- Pass 7: `replace(/\s{2,}/g, " ")`: a maximal run of two or more whitespace
characters becomes a single space; a lone whitespace character is kept as is. -/
def collapseWs (s : List Char) : List Char := collapseWsAux false s

/-- `normalizeDocumentText` from `src/lib/actions.ts` (also exported from the
utils module): the seven regex passes applied in source order. -/
def normalizeDocumentText (s : List Char) : List Char :=
  collapseWs (fixHyphen (fixCloseBracket (fixOpenBracket
    (fixPunct (fixCapsRun (fixCamel s))))))

/-! ### A small backtracking regex engine

`preprocessDocumentText` (src/unnamed/part_011, lines 194-238) uses three
patterns whose greedy/lazy parts genuinely backtrack, so those run on the
engine below.  Alternatives are tried left to right, greedy stars prefer to
consume and lazy stars prefer not to, matching the JS engine's preference
order; the continuation receives the unconsumed suffix, so the top-level
result is the suffix after the leftmost-preferred match.  Fuel bounds the
search; all uses pick fuel large enough that it is never exhausted on the
inputs appearing in theorems. -/

inductive RE where
  | eps
  | cls (p : Char → Bool)
  | cat (a b : RE)
  | alt (a b : RE)
  | star (lazy : Bool) (a : RE)
  | eol

namespace RE

/-- `r.plus` is the regex `r+` (greedy). -/
def plus (r : RE) : RE := .cat r (.star false r)

/-- `r.opt` is the regex `r?` (greedy: prefers to match). -/
def opt (r : RE) : RE := .alt r .eps

/-- A case-sensitive literal. -/
def lit (s : List Char) : RE :=
  s.foldr (fun c r => .cat (.cls (fun d => d = c)) r) .eps

/-- A case-insensitive literal (for patterns with the `i` flag). -/
def litCI (s : List Char) : RE :=
  s.foldr (fun c r => .cat (.cls (fun d => d.toLower = c.toLower)) r) .eps

end RE

/-- The backtracking matcher in continuation-passing style.  `k` receives the
suffix left after the part matched so far; the first continuation success (in
the JS engine's preference order) wins.  A star only iterates on suffixes that
got strictly shorter, as in real engines (empty-match loop prevention). -/
def matchRE : Nat → RE → List Char → (List Char → Option (List Char)) →
    Option (List Char)
  | 0, _, _, _ => none
  | _ + 1, .eps, s, k => k s
  | _ + 1, .cls p, s, k =>
    match s with
    | [] => none
    | c :: rest => if p c then k rest else none
  | f + 1, .cat a b, s, k => matchRE f a s (fun s' => matchRE f b s' k)
  | f + 1, .alt a b, s, k => (matchRE f a s k).orElse (fun _ => matchRE f b s k)
  | f + 1, .star lazy a, s, k =>
    let step := fun _ : Unit =>
      matchRE f a s (fun s' =>
        if s'.length < s.length then matchRE f (.star lazy a) s' k else none)
    if lazy then (k s).orElse step else (step ()).orElse (fun _ => k s)
  | _ + 1, .eol, s, k =>
    match s with
    | [] => k s
    | '\n' :: _ => k s
    | _ => none

/-- Run `re` at the current position; on success return the matched text and
the remaining suffix. -/
def tryMatch (re : RE) (s : List Char) : Option (List Char × List Char) :=
  match matchRE (4 * s.length + 64) re s some with
  | none => none
  | some rest => some (s.take (s.length - rest.length), rest)

/-- Global replace for an unanchored pattern: attempt the match at every
position left to right; after a match, resume right after the matched text
(the JS `g`-flag semantics).  `rep` builds the replacement from the matched
text.  Fuel is the input length: every step consumes at least one character
for the patterns used here (which cannot match the empty string). -/
def scanReplace (try_ : List Char → Option (List Char × List Char))
    (rep : List Char → List Char) : Nat → List Char → List Char
  | 0, s => s
  | _ + 1, [] => []
  | f + 1, c :: cs =>
    match try_ (c :: cs) with
    | some (m, rest) => rep m ++ scanReplace try_ rep f rest
    | none => c :: scanReplace try_ rep f cs

/-- Global replace for a `^`-anchored multiline pattern: the match is only
attempted at line starts (start of string, or right after a newline), which is
what the `m` flag's `^` means.  `atStart` tracks whether the current position
is a line start; after a match it is a line start again only when the matched
text ended with a newline. -/
def scanReplaceLines (try_ : List Char → Option (List Char × List Char))
    (rep : List Char → List Char) : Nat → Bool → List Char → List Char
  | 0, _, s => s
  | _ + 1, _, [] => []
  | f + 1, atStart, c :: cs =>
    match if atStart then try_ (c :: cs) else none with
    | some (m, rest) =>
      rep m ++ scanReplaceLines try_ rep f (m.getLast? = some '\n') rest
    | none => c :: scanReplaceLines try_ rep f (c = '\n') cs

/-! ### preprocessDocumentText (src/unnamed/part_011, lines 194-238) -/

/-- Pattern 1: `/(Table of Contents|Contents|TOC)[\s\S]*?\n\s*\n/gi` — a TOC
heading, a lazy run of anything, then a blank line; replaced by `"\n\n"`. -/
def tocSectionRE : RE :=
  .cat (.alt (RE.litCI "Table of Contents".data)
        (.alt (RE.litCI "Contents".data) (RE.litCI "TOC".data)))
    (.cat (.star true (.cls fun _ => true))
      (.cat (.cls (· = '\n'))
        (.cat (.star false (.cls isSpaceChar)) (.cls (· = '\n')))))

/-- Pattern 2: `/^\s*(\d+\.|\d+\.\d+\.?|\w+\.)\s+.+\s+\d+\s*$/gm` — a numbered
TOC entry line, replaced by the empty string.  The `^` anchor is handled by
`scanReplaceLines`; `.` is any character but a newline. -/
def tocEntryRE : RE :=
  .cat (.star false (.cls isSpaceChar))
    (.cat (.alt (.cat (RE.plus (.cls isDigit09)) (.cls (· = '.')))
          (.alt (.cat (RE.plus (.cls isDigit09))
                  (.cat (.cls (· = '.'))
                    (.cat (RE.plus (.cls isDigit09)) (RE.opt (.cls (· = '.'))))))
            (.cat (RE.plus (.cls isWordChar)) (.cls (· = '.')))))
      (.cat (RE.plus (.cls isSpaceChar))
        (.cat (RE.plus (.cls (· ≠ '\n')))
          (.cat (RE.plus (.cls isSpaceChar))
            (.cat (RE.plus (.cls isDigit09))
              (.cat (.star false (.cls isSpaceChar)) .eol))))))

/-- Pattern 3: `/^\s*\d+\s*$/gm` — a line holding only a number, replaced by
the empty string. -/
def bareNumberRE : RE :=
  .cat (.star false (.cls isSpaceChar))
    (.cat (RE.plus (.cls isDigit09))
      (.cat (.star false (.cls isSpaceChar)) .eol))

/-- State machine for `replace(/\n{3,}/g, "\n\n")`: when `skipping` the scan
is inside a newline run already replaced by a blank line. -/
def collapseNlAux : Bool → List Char → List Char
  | _, [] => []
  | true, c :: cs =>
    if c = '\n' then collapseNlAux true cs
    else c :: collapseNlAux false cs
  | false, '\n' :: '\n' :: '\n' :: cs => '\n' :: '\n' :: collapseNlAux true cs
  | false, c :: cs => c :: collapseNlAux false cs

/-- Final pass of `preprocessDocumentText`: `replace(/\n{3,}/g, "\n\n")` — a
maximal run of three or more newlines becomes a blank line. -/
def collapseNewlines (s : List Char) : List Char := collapseNlAux false s

/-- `preprocessDocumentText` from the document-loaders module: strip TOC
headings/entries/bare page numbers, then the same missing-space fixes as
`normalizeDocumentText`, then whitespace collapsing, then newline-run
collapsing, in source order. -/
def preprocessDocumentText (s : List Char) : List Char :=
  let s1 := scanReplace (tryMatch tocSectionRE) (fun _ => '\n' :: ['\n'])
    s.length s
  let s2 := scanReplaceLines (tryMatch tocEntryRE) (fun _ => []) s1.length
    true s1
  let s3 := scanReplaceLines (tryMatch bareNumberRE) (fun _ => []) s2.length
    true s2
  collapseNewlines (collapseWs (fixHyphen (fixCloseBracket (fixOpenBracket
    (fixPunct (fixCapsRun (fixCamel s3)))))))

/-! ### The document metadata model

Document metadata is an untyped JSON object in the source.  It is modelled as
an association list in which a later entry overrides an earlier one, so the JS
object spread `{...a, ...b}` is exactly list append `a ++ b` and a wholesale
assignment is just the new list. -/

inductive MetaVal where
  | str (s : List Char)
  | num (n : Nat)
deriving DecidableEq

/-- A JSON-ish metadata object: later entries shadow earlier ones. -/
abbrev Meta := List (String × MetaVal)

/-- Key lookup: the last binding for the key wins, as for JS objects built by
spreads. -/
def getMeta : Meta → String → Option MetaVal
  | [], _ => none
  | (k', v) :: rest, k =>
    match getMeta rest k with
    | some w => some w
    | none => if k' = k then some v else none

/-- A document row: the `content` column and the `metadata` JSON column. -/
structure DocRecord where
  content : List Char
  metadata : Meta
deriving DecidableEq

/-! ### createTextChunks (src/lib/supabase-functions.ts, langchain index
module, lines 130-186)

The LangChain `RecursiveCharacterTextSplitter` is an external library, so the
splitting itself is a parameter `split`; `createTextChunks` is everything the
source does around it: whitespace-normalised substring search to recover line
numbers, and stashing the chunk text as `originalText`. -/

/-- State machine for `replace(/\s+/g, " ")`: when `skipping` the scan is
inside a whitespace run already replaced by a single space. -/
def wsToSingleSpaceAux : Bool → List Char → List Char
  | _, [] => []
  | true, c :: cs =>
    if isSpaceChar c then wsToSingleSpaceAux true cs
    else c :: wsToSingleSpaceAux false cs
  | false, c :: cs =>
    if isSpaceChar c then ' ' :: wsToSingleSpaceAux true cs
    else c :: wsToSingleSpaceAux false cs

/-- `replace(/\s+/g, " ")`: every maximal whitespace run (of any length)
becomes a single space. -/
def wsToSingleSpace (s : List Char) : List Char := wsToSingleSpaceAux false s

/-- `hay.indexOf(sub)`: index of the first occurrence of `sub` in `hay`, or
`none` (JS `-1`).  The empty needle matches at index 0. -/
def indexOfSub (hay sub : List Char) : Option Nat :=
  go hay 0
where
  go : List Char → Nat → Option Nat
    | hay', i =>
      if sub.isPrefixOf hay' then some i
      else match hay' with
        | [] => none
        | _ :: t => go t (i + 1)

/-- `(s.match(/\n/g) || []).length`: the number of newlines in `s`. -/
def countNewlines (s : List Char) : Nat := (s.filter (· = '\n')).length

/-- A chunk as produced by `createTextChunks`: the splitter's text plus the
line-mapping metadata (set only when the substring search succeeds). -/
structure DocChunk where
  pageContent : List Char
  startLine : Option Nat
  endLine : Option Nat
  originalText : Option (List Char)
deriving DecidableEq

/-- The substring search of `createTextChunks` (lines 146-157):
whitespace-normalise the full text and the chunk, try an exact `indexOf`, and
fall back to the chunk's first 50 characters when the chunk is longer than
50. -/
def chunkStartIndex (text content : List Char) : Option Nat :=
  let normalizedOriginal := wsToSingleSpace text
  let normalizedChunk := wsToSingleSpace content
  match indexOfSub normalizedOriginal normalizedChunk with
  | some i => some i
  | none =>
    if normalizedChunk.length > 50 then
      indexOfSub normalizedOriginal (normalizedChunk.take 50)
    else none

/-- The per-chunk enhancement step of `createTextChunks` (lines 144-183): on
a successful search record 1-based start/end lines (newline counts over the
input text's prefixes) and the chunk text as `originalText`; on failure
return the chunk without line metadata. -/
def enhanceChunk (text content : List Char) : DocChunk :=
  match chunkStartIndex text content with
  | none => ⟨content, none, none, none⟩
  | some i =>
    ⟨content, some (countNewlines (text.take i) + 1),
      some (countNewlines (text.take (i + content.length)) + 1), some content⟩

/-- `createTextChunks`: split (external library call), then enhance each chunk
with line metadata relative to the input text. -/
def createTextChunks (split : List Char → List (List Char))
    (text : List Char) : List DocChunk :=
  (split text).map (enhanceChunk text)

/-- `processDocumentIntoChunks` (src/unnamed/part_011, lines 177-191):
preprocess, then chunk. -/
def processDocumentIntoChunks (split : List Char → List (List Char))
    (text : List Char) : List DocChunk :=
  createTextChunks split (preprocessDocumentText text)

/-! ### The ingestion route handler (src/unnamed/part_001, `POST`)

The handler is modelled by the list of database writes it performs on its
success path.  External effects are parameters: the text extracted by
`parseDocument` with its metadata, the splitter, per-chunk success of
embedding-plus-insert (`chunkOk`, mirroring the per-chunk try/catch that turns
any chunk failure into `false`), and the completion timestamp.  `fileName` and
`fileType` are read from the document metadata in the source; they are passed
explicitly here. -/

inductive DbWrite where
  | insertDoc (title content : List Char) (metadata : Meta)
  | updateDoc (content : Option (List Char)) (metadata : Meta)
  | insertChunk (content : List Char) (metadata : Meta)
deriving DecidableEq

/-- `processed ${successCount} of ${chunks.length} chunks` (line 149). -/
def progressStatus (s n : Nat) : List Char :=
  "processed ".data ++ (Nat.repr s).data ++ " of ".data ++ (Nat.repr n).data
    ++ " chunks".data

/-- `Math.round((s / n) * 100)` on naturals with `n > 0`. -/
def roundPct (s n : Nat) : Nat := (200 * s + n) / (2 * n)

/-- The chunk metadata object `{...(chunk.metadata || {})}` part: the line
mapping produced by `enhanceChunk` (the external splitter's own metadata is
not modelled). -/
def chunkMetaAssoc (c : DocChunk) : Meta :=
  match c.startLine, c.endLine, c.originalText with
  | some sl, some el, some ot =>
    [("startLine", .num sl), ("endLine", .num el), ("originalText", .str ot)]
  | _, _, _ => []

/-- The `chunks` table insert for one successfully embedded chunk
(lines 115-125); the embedding vector itself is not modelled. -/
def insertChunkWrite (docId fileName fileType : List Char) (c : DocChunk) :
    DbWrite :=
  .insertChunk c.pageContent
    (chunkMetaAssoc c ++ [("document_id", .str docId),
      ("fileName", .str fileName), ("fileType", .str fileType)])

/-- `chunks.slice(i, i + BATCH_SIZE)` batching with `BATCH_SIZE = 3`. -/
def batches3 : List α → List (List α)
  | [] => []
  | [a] => [[a]]
  | [a, b] => [[a, b]]
  | a :: b :: c :: rest => [a, b, c] :: batches3 rest

/-- The batch loop (lines 107-159): per batch, one insert per successful
chunk, then a progress update carrying the cumulative success count. -/
def batchWrites (docId fileName fileType : List Char) (docMeta extMeta : Meta)
    (total : Nat) (chunkOk : Nat → Bool) :
    List (List (Nat × DocChunk)) → Nat → List DbWrite
  | [], _ => []
  | b :: bs, s =>
    let sNew := s + (b.filter (fun p => chunkOk p.1)).length
    (b.filterMap fun p =>
      if chunkOk p.1 then some (insertChunkWrite docId fileName fileType p.2)
      else none)
    ++ [.updateDoc none (docMeta ++ extMeta
        ++ [("processingStatus", .str (progressStatus sNew total)),
            ("processingProgress", .num (roundPct sNew total))])]
    ++ batchWrites docId fileName fileType docMeta extMeta total chunkOk bs sNew

/-- The success-path write trace of the `POST` handler of
`src/unnamed/part_001`: status `processing`, content update with status
`chunking`, status `embedding` with `totalChunks`, the batch loop, and the
final `complete` update.  The handler never reads `processingStatus` before
writing. -/
def ingestWrites (doc : DocRecord) (docId fileName fileType : List Char)
    (extractedText : List Char) (extMeta : Meta)
    (split : List Char → List (List Char)) (chunkOk : Nat → Bool)
    (completedAt : List Char) : List DbWrite :=
  let normalizedText := normalizeDocumentText extractedText
  let chunks := processDocumentIntoChunks split normalizedText
  let n := chunks.length
  let sTot := (chunks.enum.filter (fun p => chunkOk p.1)).length
  [.updateDoc none (doc.metadata ++ [("processingStatus", .str "processing".data)]),
   .updateDoc (some normalizedText)
     (doc.metadata ++ extMeta ++ [("processingStatus", .str "chunking".data)]),
   .updateDoc none (doc.metadata ++ extMeta
     ++ [("processingStatus", .str "embedding".data), ("totalChunks", .num n)])]
  ++ batchWrites docId fileName fileType doc.metadata extMeta n chunkOk
      (batches3 chunks.enum) 0
  ++ [.updateDoc none (doc.metadata ++ extMeta
      ++ [("processingStatus", .str "complete".data),
          ("processingProgress", .num 100), ("totalChunks", .num n),
          ("successfulChunks", .num sTot), ("completedAt", .str completedAt)])]

/-- The catch-all error metadata written by the handler (lines 190-200): note
that it is a fresh object, not a spread of the previous metadata. -/
def errorCatchMeta (msg ts : List Char) : Meta :=
  [("processingStatus", .str "error".data), ("processingError", .str msg),
   ("errorTimestamp", .str ts)]

/-- The catch-all error write of the handler. -/
def errorCatchWrite (msg ts : List Char) : DbWrite :=
  .updateDoc none (errorCatchMeta msg ts)

/-- The two writes of `uploadFileDocument` (src/lib/actions.ts, lines
187-227): insert with status `pending`, then merge in the file URL with
status `uploaded`. -/
def uploadWrites (title fileType fileName sanitized : List Char) (size : Nat)
    (uploadedAt fileUrl : List Char) : List DbWrite :=
  let meta0 : Meta :=
    [("type", .str fileType), ("fileName", .str fileName),
     ("sanitizedFileName", .str sanitized), ("size", .num size),
     ("processingStatus", .str "pending".data), ("processingProgress", .num 0),
     ("uploadedAt", .str uploadedAt)]
  [.insertDoc title [] meta0,
   .updateDoc none (meta0 ++ [("fileUrl", .str fileUrl),
     ("processingStatus", .str "uploaded".data)])]

/-- The `processingStatus` value a write stores, if any. -/
def writeStatus : DbWrite → Option (List Char)
  | .insertDoc _ _ m =>
    match getMeta m "processingStatus" with
    | some (.str s) => some s
    | _ => none
  | .updateDoc _ m =>
    match getMeta m "processingStatus" with
    | some (.str s) => some s
    | _ => none
  | .insertChunk _ _ => none

/-- The successive `processingStatus` values stored by a write list. -/
def statusTrace (ws : List DbWrite) : List (List Char) :=
  ws.filterMap writeStatus

/-- The documented status vocabulary (spec section 4.1). -/
def allowedStatuses : List (List Char) :=
  ["pending".data, "uploaded".data, "processing".data, "chunking".data,
   "embedding".data, "complete".data, "error".data]

/-- Applying a document update to a row: the `metadata` column is replaced by
the written object (merging happens only when the written object was built by
spreading the old one). -/
def applyWrite (doc : DocRecord) : DbWrite → DocRecord
  | .updateDoc c m => ⟨c.getD doc.content, m⟩
  | .insertDoc _ _ _ => doc
  | .insertChunk _ _ => doc

/-! ### isLikelyTableOfContents (src/lib/supabase-functions.ts, langchain
index module, lines 380-435)

Every regex in this function is deterministic (adjacent components have
disjoint character classes), so each test is a direct scan. -/

/-- Case-insensitive literal prefix: on success return the rest. -/
def stripPrefixCI : List Char → List Char → Option (List Char)
  | [], s => some s
  | _, [] => none
  | w :: ws, c :: cs =>
    if c.toLower = w.toLower then stripPrefixCI ws cs else none

/-- Match literal words separated by `\s+` (case-insensitive), anchored at the
current position, ignoring whatever follows. -/
def matchWordsCI : List (List Char) → List Char → Bool
  | [], _ => true
  | [w], s => (stripPrefixCI w s).isSome
  | w :: ws, s =>
    match stripPrefixCI w s with
    | none => false
    | some r =>
      match r with
      | c :: _ =>
        if isSpaceChar c then matchWordsCI ws (r.dropWhile isSpaceChar)
        else false
      | [] => false

/-- `.test` of an unanchored `word(\s+word)*` pattern: try every position. -/
def containsWordsCI (ws : List (List Char)) : List Char → Bool
  | [] => matchWordsCI ws []
  | s@(_ :: t) => matchWordsCI ws s || containsWordsCI ws t

/-- `/^\s*word\s*$/i.test(s)` (no `m` flag: whole-string anchors). -/
def isOnlyWordCI (w : List Char) (s : List Char) : Bool :=
  match stripPrefixCI w (s.dropWhile isSpaceChar) with
  | some r => r.dropWhile isSpaceChar = []
  | none => false

/-- One `\w+\s+\d+\s+` group, maximal munch (forced, since the classes are
pairwise disjoint at each boundary). -/
def compactGroup (s : List Char) : Option (List Char) :=
  match s with
  | c :: _ =>
    if isWordChar c then
      let s1 := s.dropWhile isWordChar
      match s1 with
      | c1 :: _ =>
        if isSpaceChar c1 then
          let s2 := s1.dropWhile isSpaceChar
          match s2 with
          | c2 :: _ =>
            if isDigit09 c2 then
              let s3 := s2.dropWhile isDigit09
              match s3 with
              | c3 :: _ =>
                if isSpaceChar c3 then some (s3.dropWhile isSpaceChar)
                else none
              | [] => none
            else none
          | [] => none
        else none
      | [] => none
    else none
  | [] => none

/-- Three consecutive `\w+\s+\d+\s+` groups starting here. -/
def compactGroups3 (s : List Char) : Bool :=
  match compactGroup s with
  | none => false
  | some s1 =>
    match compactGroup s1 with
    | none => false
    | some s2 => (compactGroup s2).isSome

/-- `/(\w+\s+\d+\s+){3,}/.test(s)`: three groups somewhere in `s`. -/
def hasCompactToc : List Char → Bool
  | [] => false
  | s@(_ :: t) => compactGroups3 s || hasCompactToc t

/-- State machine for JS `s.split(/\s+/)`: `skipping` marks being inside a
separator run (the piece before it has been emitted), `cur` accumulates the
current piece in reverse. -/
def splitWsAux : Bool → List Char → List Char → List (List Char)
  | _, [], cur => [cur.reverse]
  | true, c :: cs, cur =>
    if isSpaceChar c then splitWsAux true cs cur
    else splitWsAux false cs [c]
  | false, c :: cs, cur =>
    if isSpaceChar c then cur.reverse :: splitWsAux true cs []
    else splitWsAux false cs (c :: cur)

/-- JS `s.split(/\s+/)`: pieces between maximal whitespace runs, including an
empty piece at either end when the string starts or ends with whitespace. -/
def splitWsJS (s : List Char) : List (List Char) := splitWsAux false s []

/-- Count of adjacent word pairs where the first has a letter and the second
is all digits (the `wordNumberPairs` loop, lines 404-411). -/
def wordNumberPairs (words : List (List Char)) : Nat :=
  ((words.zip words.tail).filter fun p =>
    p.1.any isLetterAZ && (!p.2.isEmpty && p.2.all isDigit09)).length

/-- The first fingerprint regex of `isLikelyTableOfContents` (line 419). -/
def fingerprintsA : List (List (List Char)) :=
  [["Conversation".data, "Conversion".data, "Strategies".data],
   ["Prospecting".data, "Calls".data],
   ["Yes".data, "Ladder".data],
   ["Memory".data, "Anchor".data],
   ["The".data, "Switch".data],
   ["Clarifying".data, "Questions".data]]

/-- The second fingerprint regex of `isLikelyTableOfContents` (line 427). -/
def fingerprintsB : List (List (List Char)) :=
  [["Whyisthatimportantnow".data],
   ["Howlonghasthisbeengoingonfor".data],
   ["Solution".data, "Strategies".data],
   ["Green".data, "Brain".data]]

/-- `isLikelyTableOfContents` from the langchain index module: TOC heading
words, low whitespace density with digits (`spaceDensity < 0.1` is the exact
rational comparison `10 * spaces < length`), three compact `word number`
groups, a high ratio of word-number pairs (`> 0.15` is `20 * pairs >
3 * words`), or a known fingerprint phrase. -/
def isLikelyTableOfContents (s : List Char) : Bool :=
  (containsWordsCI ["table".data, "of".data, "contents".data] s
      || isOnlyWordCI "contents".data s || isOnlyWordCI "toc".data s)
  || (decide (s.length > 0)
      && decide ((s.filter isSpaceChar).length * 10 < s.length)
      && s.any isDigit09)
  || hasCompactToc s
  || (let words := splitWsJS s
      let pairs := wordNumberPairs words
      decide (pairs ≥ 3) && decide (pairs * 20 > words.length * 3))
  || fingerprintsA.any (fun ws => containsWordsCI ws s)
  || fingerprintsB.any (fun ws => containsWordsCI ws s)

/-! ### retrieveRelevantDocuments (langchain index module, lines 321-377) -/

/-- A row returned by the `match_chunks` RPC. -/
structure RawChunk where
  content : List Char
  document_id : List Char
  metadata : Meta
deriving DecidableEq

/-- A retrieval result in LangChain document shape. -/
structure RetrievedDoc where
  pageContent : List Char
  metadata : Meta
deriving DecidableEq

/-- The transformation of an RPC row (lines 351-363): the row's metadata with
`document_id` forced in. -/
def toRetrievedDoc (c : RawChunk) : RetrievedDoc :=
  ⟨c.content, c.metadata ++ [("document_id", .str c.document_id)]⟩

/-- `retrieveRelevantDocuments`: the vector store (`matchChunks`, the
`match_chunks` RPC with the query embedding already applied) is asked for
`match_count * 2` rows; TOC-like chunks are filtered out and the first
`match_count` survivors are returned. -/
def retrieveRelevantDocuments (matchCount : Nat)
    (matchChunks : Nat → List RawChunk) : List RetrievedDoc :=
  let chunks := matchChunks (matchCount * 2)
  let results := chunks.map toRetrievedDoc
  let filtered := results.filter
    (fun d => !(isLikelyTableOfContents d.pageContent))
  filtered.take matchCount

/-! ### generateEmbedding (langchain index module, lines 189-280)

The embedding service is an `oracle` indexed by attempt number; a timeout and
a transport failure are both an `Except.error`.  The `production` flag is
`process.env.NODE_ENV === "production"`; `Math.random()` is a `rand`
parameter. -/

/-- `MAX_TEXT_LENGTH` (line 192). -/
def MAX_TEXT_LENGTH : Nat := 6000

/-- `MAX_RETRIES` (line 207). -/
def MAX_RETRIES : Nat := 5

/-- The validation step (lines 230-232): an empty result is an error. -/
def validateEmbedding (r : Except (List Char) (List Int)) :
    Except (List Char) (List Int) :=
  match r with
  | .ok e => if e.isEmpty then .error "Invalid embedding result".data else .ok e
  | .error m => .error m

/-- The retry loop of `generateEmbedding` (lines 211-259).  Returns the result
together with the list of backoff delays (`1000 * 2^retries` ms) taken.  On
the final retry, text longer than 2000 characters is truncated and one more
attempt granted (`retries--` + `continue`), which can happen at most once.
Fuel strictly exceeds the maximal 7 iterations, so the fuel-out branch is
unreachable; the `.ok []` fall-through mirrors `return embedding` with the
initial empty array if the loop were ever exited by its guard. -/
def embedLoop (oracle : Nat → List Char → Except (List Char) (List Int)) :
    Nat → Nat → Nat → List Char → List Nat →
    Except (List Char) (List Int) × List Nat
  | 0, _, _, _, delays => (.error "fuel exhausted".data, delays)
  | f + 1, attempt, retries, txt, delays =>
    if retries < MAX_RETRIES then
      match validateEmbedding (oracle attempt txt) with
      | .ok e => (.ok e, delays)
      | .error msg =>
        let r := retries + 1
        if r ≥ MAX_RETRIES then
          if txt.length > 2000 && r = MAX_RETRIES then
            embedLoop oracle f (attempt + 1) (r - 1) (txt.take 2000) delays
          else (.error msg, delays)
        else
          embedLoop oracle f (attempt + 1) r txt (delays ++ [1000 * 2 ^ r])
    else (.ok [], delays)

/-- The production fallback (lines 273-275): a 1536-component vector of
`Math.random() * 2 - 1` draws. -/
def fallbackEmbedding (rand : Nat → Int) : List Int :=
  (List.range 1536).map rand

/-- `generateEmbedding`: cap the input at `MAX_TEXT_LENGTH`, run the retry
loop, and on total failure either return the random fallback vector (in
production) or surface the error. -/
def generateEmbedding (production : Bool) (rand : Nat → Int)
    (oracle : Nat → List Char → Except (List Char) (List Int))
    (text : List Char) : Except (List Char) (List Int) × List Nat :=
  let processed :=
    if text.length > MAX_TEXT_LENGTH then text.take MAX_TEXT_LENGTH else text
  match embedLoop oracle 16 0 0 processed [] with
  | (.ok e, ds) => (.ok e, ds)
  | (.error msg, ds) =>
    if production then (.ok (fallbackEmbedding rand), ds)
    else (.error msg, ds)

/-! ### generateChatResponse citation handling (src/lib/actions.ts,
lines 588-682 and 739-742) -/

/-- A response-scoped citation. -/
structure Citation where
  id : List Char
  text : List Char
  document : List Char
  documentId : List Char
  startLine : Option Nat
  endLine : Option Nat
  originalText : Option (List Char)
deriving DecidableEq

/-- Building one citation from a retrieved chunk (lines 616-634): the
displayed text is `originalText || doc.pageContent` (JS `||`: an absent or
empty `originalText` falls back to the chunk text). -/
def mkCitation (ident title docId : List Char) (c : DocChunk) : Citation :=
  { id := ident
    text :=
      match c.originalText with
      | some t => if t.isEmpty then c.pageContent else t
      | none => c.pageContent
    document := title
    documentId := docId
    startLine := c.startLine
    endLine := c.endLine
    originalText := c.originalText }

/-- Case-sensitive literal prefix. -/
def stripPrefixCS : List Char → List Char → Option (List Char)
  | [], s => some s
  | _, [] => none
  | w :: ws, c :: cs => if c = w then stripPrefixCS ws cs else none

/-- Digits of a numeral. -/
def parseNatDigits (ds : List Char) : Nat :=
  ds.foldl (fun a c => a * 10 + (c.toNat - '0'.toNat)) 0

/-- Accumulating scan for `match(/\d+/g)`: `cur` is the current digit run in
reverse. -/
def digitRunsAux : List Char → List Char → List (List Char)
  | [], cur => if cur.isEmpty then [] else [cur.reverse]
  | c :: cs, cur =>
    if isDigit09 c then digitRunsAux cs (c :: cur)
    else if cur.isEmpty then digitRunsAux cs []
    else cur.reverse :: digitRunsAux cs []

/-- Maximal digit runs of a string (`match(/\d+/g)`). -/
def digitRuns (s : List Char) : List (List Char) := digitRunsAux s []

/-- Matcher for `/CITATION_BADGE_(\d+)/g` (line 656). -/
def tryBadgeNum (s : List Char) : Option (List Char × List Char) :=
  match stripPrefixCS "CITATION_BADGE_".data s with
  | none => none
  | some r =>
    let ds := r.takeWhile isDigit09
    if ds.isEmpty then none
    else some ("CITATION_BADGE_".data ++ ds, r.dropWhile isDigit09)

/-- Replacement callback of the first rewrite (lines 656-662): `[index + 1]`,
whether or not the index is within the citation list. -/
def badgeNumRep (cits : Nat) (m : List Char) : List Char :=
  let n := parseNatDigits (m.drop "CITATION_BADGE_".length)
  if n < cits then '[' :: (Nat.repr (n + 1)).data ++ [']']
  else '[' :: (Nat.repr (n + 1)).data ++ [']']

/-- Matcher for `/CITATION_BADGE_\d+[_]+\d+/g` (line 665). -/
def tryBadgeMulti (s : List Char) : Option (List Char × List Char) :=
  match stripPrefixCS "CITATION_BADGE_".data s with
  | none => none
  | some r =>
    let d1 := r.takeWhile isDigit09
    if d1.isEmpty then none
    else
      let r1 := r.dropWhile isDigit09
      let us := r1.takeWhile (· = '_')
      if us.isEmpty then none
      else
        let r2 := r1.dropWhile (· = '_')
        let d2 := r2.takeWhile isDigit09
        if d2.isEmpty then none
        else some ("CITATION_BADGE_".data ++ d1 ++ us ++ d2,
          r2.dropWhile isDigit09)

/-- Replacement callback of the second rewrite (lines 665-679): each digit run
in the match becomes `[n + 1]`; with no digit runs, `[1]`. -/
def badgeMultiRep (cits : Nat) (m : List Char) : List Char :=
  let ns := digitRuns m
  if ns.isEmpty then "[1]".data
  else (ns.map fun d =>
    let n := parseNatDigits d
    if n < cits then '[' :: (Nat.repr (n + 1)).data ++ [']']
    else '[' :: (Nat.repr (n + 1)).data ++ [']']).flatten

/-- Matcher for the final `/CITATION_BADGE/g` strip (line 682). -/
def tryBadgeBare (s : List Char) : Option (List Char × List Char) :=
  match stripPrefixCS "CITATION_BADGE".data s with
  | none => none
  | some r => some ("CITATION_BADGE".data, r)

/-- The three-step citation-marker post-processing of `generateChatResponse`
(lines 654-682), in source order. -/
def postProcessResponse (cits : Nat) (s : List Char) : List Char :=
  let s1 := scanReplace tryBadgeNum (badgeNumRep cits) s.length s
  let s2 := scanReplace tryBadgeMulti (badgeMultiRep cits) s1.length s1
  scanReplace tryBadgeBare (fun _ => []) s2.length s2

/-- What `generateChatResponse` hands back to its caller (lines 739-742): the
post-processed text and the citation list built earlier — the whole list. -/
def chatReturn (citations : List Citation) (raw : List Char) :
    List Char × List Citation :=
  (postProcessResponse citations.length raw, citations)

/-! ### uploadDocument (src/lib/actions.ts, lines 98-162)

The initial insert and the chunk pipeline are external effects.  Each chunk
outcome is `.error e` when embedding threw (caught per chunk), `.ok false`
when the chunk insert reported an error (logged), `.ok true` on success; the
whole pipeline can itself throw (`.error`), which the outer catch swallows. -/

def uploadDocument (docIns : Except (List Char) DocRecord)
    (chunksRes : Except (List Char) (List (Except (List Char) Bool))) :
    Except (List Char) (DocRecord × Nat) :=
  match docIns with
  | .error _ => .error "Failed to upload document".data
  | .ok doc =>
    match chunksRes with
    | .error _ => .ok (doc, 0)
    | .ok outcomes =>
      .ok (doc, (outcomes.filter fun o =>
        match o with
        | .ok true => true
        | _ => false).length)

/-! ## Helper lemmas -/

theorem getMeta_append_some {l : Meta} {k : String} {v : MetaVal}
    (m : Meta) (h : getMeta l k = some v) : getMeta (m ++ l) k = some v := by
  induction m with
  | nil => simpa using h
  | cons a m ih => simp [getMeta, ih]

theorem getMeta_append_none {l : Meta} {k : String}
    (m : Meta) (h : getMeta l k = none) : getMeta (m ++ l) k = getMeta m k := by
  induction m with
  | nil => simpa using h
  | cons a m ih =>
    cases a with
    | mk k' v => simp [getMeta, ih]

theorem statusTrace_append (a b : List DbWrite) :
    statusTrace (a ++ b) = statusTrace a ++ statusTrace b :=
  List.filterMap_append a b writeStatus

theorem progressStatus_length (s n : Nat) : 21 ≤ (progressStatus s n).length := by
  have h1 : ("processed ".data).length = 10 := rfl
  have h2 : (" of ".data).length = 4 := rfl
  have h3 : (" chunks".data).length = 7 := rfl
  simp only [progressStatus, List.length_append, h1, h2, h3]
  omega

theorem progressStatus_not_allowed (s n : Nat) :
    progressStatus s n ∉ allowedStatuses := by
  intro h
  have hl := progressStatus_length s n
  simp only [allowedStatuses, List.mem_cons, List.not_mem_nil, or_false] at h
  rcases h with h | h | h | h | h | h | h <;>
    (rw [h] at hl; exact absurd hl (by decide))

/-! ## Claim theorems -/

/-- C10 counterexample: `normalizeDocumentText` is not idempotent.  On
`"a-b-c"` the hyphen pass matches `a-b`, resumes after it, and therefore
misses `b-c`; a second application spaces the second hyphen as well. -/
theorem normalize_idempotent_cex :
    ¬ normalizeDocumentText (normalizeDocumentText "a-b-c".data)
      = normalizeDocumentText "a-b-c".data := by decide

/-- C10 (amended): `normalizeDocumentText` is not idempotent: the global
hyphen-spacing pass resumes scanning after each match, so overlapping
letter-hyphen-letter patterns are only partially spaced and a second
application changes the text; `normalize "a-b-c" = "a - b-c"` while a second
application yields `"a - b - c"`. -/
theorem normalize_hyphen_amended :
    normalizeDocumentText "a-b-c".data = "a - b-c".data
    ∧ normalizeDocumentText "a - b-c".data = "a - b - c".data := by decide

/-- C8: the TOC heuristic filter (`isLikelyTableOfContents`, the filter used
by the retrieval engine) classifies the synthetic table-of-contents block as
noise — three `word number` pairs among nine whitespace-split words exceed
both thresholds — and classifies an ordinary prose paragraph as not noise. -/
theorem toc_filter_examples :
    isLikelyTableOfContents
      "Chapter One 1\nChapter Two 15\nChapter Three 42".data = true
    ∧ isLikelyTableOfContents
      ("This is an ordinary paragraph of prose. It talks about ideas "
        ++ "with normal spacing and punctuation.").data = false := by decide

/-- C9: whenever the initial document insert succeeds, `uploadDocument`
returns the inserted record: the chunk pipeline's failure (`.error`) is
swallowed by the outer catch, and per-chunk failures only lower the success
count — in particular a run in which no chunk outcome succeeds still returns
the document with zero chunks stored. -/
theorem uploadDocument_swallows (doc : DocRecord)
    (chunksRes : Except (List Char) (List (Except (List Char) Bool))) :
    (∃ n, uploadDocument (.ok doc) chunksRes = .ok (doc, n))
    ∧ (∀ outcomes : List (Except (List Char) Bool),
        (∀ o ∈ outcomes, o ≠ .ok true) →
        uploadDocument (.ok doc) (.ok outcomes) = .ok (doc, 0)) := by
  constructor
  · cases chunksRes with
    | error e => exact ⟨0, rfl⟩
    | ok outcomes => exact ⟨_, rfl⟩
  · intro outcomes h
    have hf : outcomes.filter (fun o =>
        match o with
        | .ok true => true
        | _ => false) = [] := by
      rw [List.filter_eq_nil_iff]
      intro o ho
      have := h o ho
      cases o with
      | error e => simp
      | ok b => cases b <;> simp_all
    simp [uploadDocument, hf]

/-- C9 witness: a concrete run whose three chunk outcomes all fail (embedding
exception, insert error, embedding exception) returns the document with zero
chunks stored. -/
theorem uploadDocument_swallows_witness :
    uploadDocument (.ok ⟨"body".data, []⟩)
      (.ok [.error "embed timeout".data, .ok false, .error "boom".data])
      = .ok (⟨"body".data, []⟩, 0) :=
  (uploadDocument_swallows ⟨"body".data, []⟩
    (.ok [.error "embed timeout".data, .ok false, .error "boom".data])).2
    [.error "embed timeout".data, .ok false, .error "boom".data]
    (by intro o ho; fin_cases ho <;> simp)

/-- C3: `retrieveRelevantDocuments` asks the vector store for
`match_count * 2` rows, filters out every chunk the TOC heuristic classifies
as noise, and returns the first `match_count` survivors in the store's
similarity order: the result is exactly the `take` of the filtered transformed
rows, has at most `match_count` elements, contains no TOC-classified chunk,
and is an order-preserving sublist of the transformed 2×-over-fetched rows. -/
theorem retrieve_spec (k : Nat) (mc : Nat → List RawChunk) :
    retrieveRelevantDocuments k mc
      = (((mc (k * 2)).map toRetrievedDoc).filter
          (fun d => !(isLikelyTableOfContents d.pageContent))).take k
    ∧ (retrieveRelevantDocuments k mc).length ≤ k
    ∧ (∀ d ∈ retrieveRelevantDocuments k mc,
        isLikelyTableOfContents d.pageContent = false)
    ∧ List.Sublist (retrieveRelevantDocuments k mc)
        ((mc (k * 2)).map toRetrievedDoc) := by
  refine ⟨rfl, ?_, ?_, ?_⟩
  · exact (List.length_take _ _).le.trans (Nat.min_le_left _ _)
  · intro d hd
    have hmem : d ∈ ((mc (k * 2)).map toRetrievedDoc).filter
        (fun d => !(isLikelyTableOfContents d.pageContent)) :=
      List.take_subset _ _ hd
    have := (List.mem_filter.mp hmem).2
    simpa using this
  · exact (List.take_sublist _ _).trans (List.filter_sublist _)

/-- C3 witness: with `match_count = 1` and a store returning a TOC-noise row
followed by a prose row, retrieval requests two rows and returns only the
prose row. -/
theorem retrieve_spec_witness :
    (retrieveRelevantDocuments 1 (fun n =>
        if n = 2 then
          [⟨"Chapter One 1\nChapter Two 15\nChapter Three 42".data,
             "d1".data, []⟩,
           ⟨"An ordinary paragraph about the weather.".data, "d2".data, []⟩]
        else [])).length ≤ 1
    ∧ (∀ d ∈ retrieveRelevantDocuments 1 (fun n =>
        if n = 2 then
          [⟨"Chapter One 1\nChapter Two 15\nChapter Three 42".data,
             "d1".data, []⟩,
           ⟨"An ordinary paragraph about the weather.".data, "d2".data, []⟩]
        else []), isLikelyTableOfContents d.pageContent = false) :=
  ⟨(retrieve_spec 1 _).2.1, (retrieve_spec 1 _).2.2.1⟩

/-- C5 counterexample: with three citations built for the prompt context and a
response referencing only excerpts 0 and 2, `generateChatResponse` rewrites
the markers to `[1]` and `[3]` but returns all three citations — the returned
list does not consist of just the two referenced entries. -/
theorem chat_citations_cex :
    (chatReturn
        [⟨"c1".data, "t0".data, "D".data, "d".data, none, none, none⟩,
         ⟨"c2".data, "t1".data, "D".data, "d".data, none, none, none⟩,
         ⟨"c3".data, "t2".data, "D".data, "d".data, none, none, none⟩]
        "A CITATION_BADGE_0 B CITATION_BADGE_2".data).1
      = "A [1] B [3]".data
    ∧ ((chatReturn
        [⟨"c1".data, "t0".data, "D".data, "d".data, none, none, none⟩,
         ⟨"c2".data, "t1".data, "D".data, "d".data, none, none, none⟩,
         ⟨"c3".data, "t2".data, "D".data, "d".data, none, none, none⟩]
        "A CITATION_BADGE_0 B CITATION_BADGE_2".data).2).length ≠ 2 := by
  decide

/-- C5 (amended): post-processing rewrites internal markers for excerpts 0 and
2 into `[1]` and `[3]` and strips leftover `CITATION_BADGE` text from the
visible response, but the citation list returned to the caller is the full
list built from all context excerpts, unfiltered; filtering to the referenced
indices happens only in the chat-message display component. -/
theorem chat_citations_amended :
    (∀ (cits : List Citation) (raw : List Char),
      (chatReturn cits raw).2 = cits)
    ∧ postProcessResponse 3
        "foo CITATION_BADGE_0 bar CITATION_BADGE_2 baz CITATION_BADGE".data
      = "foo [1] bar [3] baz ".data :=
  ⟨fun _ _ => rfl, by decide⟩

/-- C7 counterexample: the catch-all error write of the ingestion handler
replaces the metadata object wholesale, so a document that had `fileName`
(and `fileUrl`, `type`, `size`) loses them: after the error write the
`fileName` key is gone, not preserved as the claim requires. -/
theorem error_write_cex :
    getMeta (applyWrite
        ⟨"c".data,
         [("fileName", .str "f.pdf".data), ("fileUrl", .str "u".data),
          ("type", .str "pdf".data), ("size", .num 9),
          ("processingStatus", .str "embedding".data)]⟩
        (errorCatchWrite "boom".data "TS".data)).metadata "fileName"
      = none := by decide

/-- C7 (amended): the catch-all error write stores the failure reason, a
timestamp and status `error`, but assigns a fresh metadata object rather than
merging: every key other than those three comes back empty afterwards, so
prior keys such as `fileName` are clobbered.  The in-pipeline status writes,
by contrast, do merge key by key: spreading the old metadata preserves every
key they do not set. -/
theorem error_write_amended :
    (∀ (doc : DocRecord) (msg ts : List Char),
      getMeta (applyWrite doc (errorCatchWrite msg ts)).metadata
          "processingStatus" = some (.str "error".data)
      ∧ getMeta (applyWrite doc (errorCatchWrite msg ts)).metadata
          "processingError" = some (.str msg)
      ∧ getMeta (applyWrite doc (errorCatchWrite msg ts)).metadata
          "errorTimestamp" = some (.str ts))
    ∧ (∀ (doc : DocRecord) (msg ts : List Char) (k : String),
        k ≠ "processingStatus" → k ≠ "processingError" →
        k ≠ "errorTimestamp" →
        getMeta (applyWrite doc (errorCatchWrite msg ts)).metadata k = none)
    ∧ (∀ (m : Meta) (v : MetaVal) (k : String), k ≠ "processingStatus" →
        getMeta (m ++ [("processingStatus", v)]) k = getMeta m k) := by
  refine ⟨fun doc msg ts => ⟨rfl, ?_, ?_⟩, fun doc msg ts k h1 h2 h3 => ?_,
    fun m v k hk => ?_⟩
  · simp [applyWrite, errorCatchWrite, errorCatchMeta, getMeta]
  · simp [applyWrite, errorCatchWrite, errorCatchMeta, getMeta]
  · simp [applyWrite, errorCatchWrite, errorCatchMeta, getMeta,
      h1, h2, h3, Ne.symm h1, Ne.symm h2, Ne.symm h3]
  · exact getMeta_append_none m (by simp [getMeta, Ne.symm hk])

/-- C7 witness: applied to a document whose metadata holds `fileName`, the
error write keeps status/reason/timestamp but returns `none` for `fileName`,
while a merge-style status write preserves `fileName`. -/
theorem error_write_amended_witness :
    getMeta (applyWrite ⟨"c".data, [("fileName", .str "f.pdf".data)]⟩
        (errorCatchWrite "boom".data "TS".data)).metadata "fileName" = none
    ∧ getMeta ([("fileName", .str "f.pdf".data)]
        ++ [("processingStatus", .str "processing".data)]) "fileName"
      = some (.str "f.pdf".data) :=
  ⟨error_write_amended.2.1 ⟨"c".data, [("fileName", .str "f.pdf".data)]⟩
      "boom".data "TS".data "fileName" (by decide) (by decide) (by decide),
    by
      rw [error_write_amended.2.2 [("fileName", .str "f.pdf".data)]
        (.str "processing".data) "fileName" (by decide)]
      rfl⟩

/-- C1 counterexample: invoking the document-processing `POST` handler on a
document whose `metadata.processingStatus` is already `complete` is not a
no-op: the handler performs writes, its first stored status is `processing`,
the document content ends up overwritten with the re-extracted text, and the
chunks are inserted again. -/
theorem ingest_not_idempotent_cex :
    (ingestWrites
        ⟨"old".data, [("fileName", .str "f.txt".data),
          ("processingStatus", .str "complete".data)]⟩
        "d1".data "f.txt".data "txt".data "hi".data [] (fun t => [t])
        (fun _ => true) "TS".data) ≠ []
    ∧ (statusTrace (ingestWrites
        ⟨"old".data, [("fileName", .str "f.txt".data),
          ("processingStatus", .str "complete".data)]⟩
        "d1".data "f.txt".data "txt".data "hi".data [] (fun t => [t])
        (fun _ => true) "TS".data)).head? = some "processing".data
    ∧ ((ingestWrites
        ⟨"old".data, [("fileName", .str "f.txt".data),
          ("processingStatus", .str "complete".data)]⟩
        "d1".data "f.txt".data "txt".data "hi".data [] (fun t => [t])
        (fun _ => true) "TS".data).foldl applyWrite
        ⟨"old".data, [("fileName", .str "f.txt".data),
          ("processingStatus", .str "complete".data)]⟩).content ≠ "old".data
    ∧ (ingestWrites
        ⟨"old".data, [("fileName", .str "f.txt".data),
          ("processingStatus", .str "complete".data)]⟩
        "d1".data "f.txt".data "txt".data "hi".data [] (fun t => [t])
        (fun _ => true) "TS".data).any (fun w =>
          match w with
          | .insertChunk _ _ => true
          | _ => false) = true := by decide

/-- C1 (amended): the handler performs no status check at all — for every
document, whatever its current `processingStatus` (including `complete`), its
first write unconditionally resets the status to `processing` and its second
overwrites the content with the re-extracted, re-normalized text; ingest
re-runs the pipeline rather than short-circuiting. -/
theorem ingest_reprocesses_amended (doc : DocRecord)
    (docId fileName fileType extText : List Char) (extMeta : Meta)
    (split : List Char → List (List Char)) (chunkOk : Nat → Bool)
    (ts : List Char) :
    (ingestWrites doc docId fileName fileType extText extMeta split chunkOk
        ts).take 2
      = [.updateDoc none
          (doc.metadata ++ [("processingStatus", .str "processing".data)]),
         .updateDoc (some (normalizeDocumentText extText))
          (doc.metadata ++ extMeta
            ++ [("processingStatus", .str "chunking".data)])] := rfl

/-- Shape of `enhanceChunk`: either the substring search fails and the chunk
is returned bare, or it succeeds and the chunk carries line numbers and its
own text as `originalText`. -/
theorem enhanceChunk_shape (text content : List Char) :
    enhanceChunk text content = ⟨content, none, none, none⟩
    ∨ ∃ a b, enhanceChunk text content = ⟨content, some a, some b, some content⟩ := by
  cases h : chunkStartIndex text content <;> simp [enhanceChunk, h]

/-- C4 counterexample: processing the document `"helloWorld"` through the
pipeline (normalize, then chunk) stores `originalText = "hello World"` — the
chunk's normalized text — which is not a span of the pre-normalization
document text `"helloWorld"` at all, and the citation built from that chunk
carries the normalized text. -/
theorem chunk_originalText_cex :
    processDocumentIntoChunks (fun t => [t])
        (normalizeDocumentText "helloWorld".data)
      = [⟨"hello World".data, some 1, some 1, some "hello World".data⟩]
    ∧ indexOfSub "helloWorld".data "hello World".data = none
    ∧ (mkCitation "id".data "T".data "D".data
        ⟨"hello World".data, some 1, some 1, some "hello World".data⟩).text
      = "hello World".data := by decide

/-- C4 (amended): for every pipeline run, a stored chunk's
`metadata.originalText` is (when present) the chunk's own text as produced
from the normalized-and-preprocessed document — the pipeline chunks the
normalized text, so the stored "original" text is post-normalization, not a
span of the pre-normalization document — and the citation reconstructed from
such a chunk carries exactly that stored chunk text. -/
theorem chunk_originalText_amended (split : List Char → List (List Char))
    (text : List Char) (c : DocChunk)
    (hc : c ∈ processDocumentIntoChunks split (normalizeDocumentText text)) :
    (c.originalText = none ∨ c.originalText = some c.pageContent)
    ∧ c.pageContent ∈ split (preprocessDocumentText (normalizeDocumentText text))
    ∧ (∀ ident title docId, (mkCitation ident title docId c).text
        = c.pageContent) := by
  rw [processDocumentIntoChunks, createTextChunks] at hc
  obtain ⟨content, hmem, rfl⟩ := List.mem_map.mp hc
  rcases enhanceChunk_shape (preprocessDocumentText (normalizeDocumentText text))
      content with h | ⟨a, b, h⟩ <;> rw [h]
  · exact ⟨Or.inl rfl, hmem, fun _ _ _ => rfl⟩
  · exact ⟨Or.inr rfl, hmem, fun _ _ _ => by simp [mkCitation]⟩

/-- C4 witness: the amended statement applied to the concrete `"helloWorld"`
run — the citation built from its single chunk shows the chunk's (normalized)
text. -/
theorem chunk_originalText_amended_witness :
    (mkCitation "id".data "T".data "D".data
        ⟨"hello World".data, some 1, some 1, some "hello World".data⟩).text
      = "hello World".data :=
  (chunk_originalText_amended (fun t => [t]) "helloWorld".data
      ⟨"hello World".data, some 1, some 1, some "hello World".data⟩
      (by decide)).2.2 "id".data "T".data "D".data

/-- With a service that fails on every attempt, the retry loop performs five
attempts with exponential backoff; when the working text exceeds 2000
characters it is truncated for one extra attempt (attempt index 5), otherwise
the error of attempt 4 is re-thrown. -/
theorem embedLoop_allfail (msgf : Nat → List Char → List Char) (p : List Char) :
    embedLoop (fun i t => .error (msgf i t)) 16 0 0 p []
      = if p.length > 2000 then
          (.error (msgf 5 (p.take 2000)), [2000, 4000, 8000, 16000])
        else (.error (msgf 4 p), [2000, 4000, 8000, 16000]) := by
  by_cases h : p.length > 2000
  · rw [if_pos h]
    have ht : ¬ (p.take 2000).length > 2000 := by
      rw [List.length_take]; omega
    simp [embedLoop, validateEmbedding, MAX_RETRIES, h, ht]
  · rw [if_neg h]
    simp [embedLoop, validateEmbedding, MAX_RETRIES, h]

/-- C6 counterexample: in production mode, a service that fails on every
attempt does not yield an `EmbeddingError` — `generateEmbedding` returns the
random fallback vector as a success. -/
theorem embedding_fallback_cex :
    (generateEmbedding true (fun _ => 7) (fun _ _ => .error "boom".data)
        "hi".data).1 = .ok (fallbackEmbedding (fun _ => 7)) := by
  have h := embedLoop_allfail (fun _ _ => "boom".data) "hi".data
  simp only [generateEmbedding, MAX_TEXT_LENGTH]
  norm_num at h ⊢
  rw [h]

/-- C6 (amended): a service failing twice then succeeding yields the
third-attempt embedding with no error, after backoff waits of 2000 ms and
4000 ms.  A service that fails on every attempt exhausts the five retries
with exponential backoff (2000/4000/8000/16000 ms); when the working text
exceeds 2000 characters it is truncated to 2000 characters for one extra
attempt; the resulting error is surfaced to the caller only outside
production mode — in production mode the caller instead receives a random
fallback vector of dimension 1536 as a success. -/
theorem generateEmbedding_amended :
    (∀ (production : Bool) (rand : Nat → Int)
        (oracle : Nat → List Char → Except (List Char) (List Int))
        (text m0 m1 : List Char) (e : List Int),
      (∀ t, oracle 0 t = .error m0) → (∀ t, oracle 1 t = .error m1) →
      (∀ t, oracle 2 t = .ok e) → e ≠ [] →
      generateEmbedding production rand oracle text = (.ok e, [2000, 4000]))
    ∧ (∀ (rand : Nat → Int) (msgf : Nat → List Char → List Char)
        (text : List Char), text.length ≤ 2000 →
      generateEmbedding false rand (fun i t => .error (msgf i t)) text
        = (.error (msgf 4 text), [2000, 4000, 8000, 16000]))
    ∧ (∀ (rand : Nat → Int) (msgf : Nat → List Char → List Char)
        (text : List Char), 2000 < text.length →
      generateEmbedding false rand (fun i t => .error (msgf i t)) text
        = (.error (msgf 5 (text.take 2000)), [2000, 4000, 8000, 16000]))
    ∧ (∀ (rand : Nat → Int) (msgf : Nat → List Char → List Char)
        (text : List Char),
      (generateEmbedding true rand (fun i t => .error (msgf i t)) text).1
        = .ok (fallbackEmbedding rand))
    ∧ (∀ rand : Nat → Int, (fallbackEmbedding rand).length = 1536) := by
  refine ⟨?_, ?_, ?_, ?_, ?_⟩
  · intro production rand oracle text m0 m1 e h0 h1 h2 he
    have he' : e.isEmpty = false := by
      cases e with
      | nil => exact absurd rfl he
      | cons a t => rfl
    simp [generateEmbedding, embedLoop, validateEmbedding, MAX_RETRIES,
      h0, h1, h2, he']
  · intro rand msgf text hlen
    have hcap : ¬ text.length > MAX_TEXT_LENGTH := by
      simp only [MAX_TEXT_LENGTH]; omega
    have h := embedLoop_allfail msgf text
    rw [if_neg (by omega)] at h
    simp [generateEmbedding, if_neg hcap, h]
  · intro rand msgf text hlen
    by_cases hcap : text.length > MAX_TEXT_LENGTH
    · have h := embedLoop_allfail msgf (text.take MAX_TEXT_LENGTH)
      have hlen6 : (text.take MAX_TEXT_LENGTH).length = MAX_TEXT_LENGTH := by
        have hc := hcap
        simp only [MAX_TEXT_LENGTH] at hc
        rw [List.length_take]
        simp only [MAX_TEXT_LENGTH]
        omega
      rw [if_pos (by rw [hlen6]; simp only [MAX_TEXT_LENGTH]; omega)] at h
      have htt : (text.take MAX_TEXT_LENGTH).take 2000 = text.take 2000 := by
        rw [List.take_take]
        norm_num [MAX_TEXT_LENGTH]
      rw [htt] at h
      simp [generateEmbedding, if_pos hcap, h]
    · have h := embedLoop_allfail msgf text
      rw [if_pos (by omega)] at h
      simp [generateEmbedding, if_neg hcap, h]
  · intro rand msgf text
    by_cases hcap : text.length > MAX_TEXT_LENGTH
    · have h := embedLoop_allfail msgf (text.take MAX_TEXT_LENGTH)
      by_cases h2 : (text.take MAX_TEXT_LENGTH).length > 2000
      · rw [if_pos h2] at h
        simp [generateEmbedding, if_pos hcap, h]
      · rw [if_neg h2] at h
        simp [generateEmbedding, if_pos hcap, h]
    · have h := embedLoop_allfail msgf text
      by_cases h2 : text.length > 2000
      · rw [if_pos h2] at h
        simp [generateEmbedding, if_neg hcap, h]
      · rw [if_neg h2] at h
        simp [generateEmbedding, if_neg hcap, h]
  · intro rand
    simp [fallbackEmbedding]

/-- C6 witness: a concrete service failing twice then succeeding returns the
third embedding with backoff delays 2000 and 4000 ms, and a production run
with an always-failing service returns the 1536-component fallback. -/
theorem generateEmbedding_amended_witness :
    generateEmbedding false (fun _ => 0)
        (fun i _ => if i < 2 then .error "down".data else .ok [3])
        "hi".data = (.ok [3], [2000, 4000])
    ∧ (fallbackEmbedding (fun _ => 7)).length = 1536 :=
  ⟨generateEmbedding_amended.1 false (fun _ => 0)
      (fun i _ => if i < 2 then .error "down".data else .ok [3])
      "hi".data "down".data "down".data [3]
      (fun _ => rfl) (fun _ => rfl) (fun _ => rfl) (by decide),
    generateEmbedding_amended.2.2.2.2 (fun _ => 7)⟩

/-- Chunk inserts carry no `processingStatus`, so a batch's insert writes
contribute nothing to the status trace. -/
theorem statusTrace_chunkInserts (docId fileName fileType : List Char)
    (chunkOk : Nat → Bool) (b : List (Nat × DocChunk)) :
    statusTrace (b.filterMap fun p =>
      if chunkOk p.1 then some (insertChunkWrite docId fileName fileType p.2)
      else none) = [] := by
  rw [statusTrace, List.filterMap_eq_nil_iff]
  intro w hw
  obtain ⟨p, _, heq⟩ := List.mem_filterMap.mp hw
  by_cases h : chunkOk p.1
  · rw [if_pos h] at heq
    cases heq
    rfl
  · rw [if_neg h] at heq
    cases heq

/-- The `processingStatus` stored by a batch progress update is the progress
string, whatever the merged-in metadata was. -/
theorem getMeta_status_pair (m : Meta) (x : List Char) (y : Nat) :
    getMeta (m ++ [("processingStatus", MetaVal.str x),
      ("processingProgress", MetaVal.num y)]) "processingStatus"
      = some (.str x) :=
  getMeta_append_some m rfl

/-- Status extracted from a batch progress update. -/
theorem statusTrace_single_progress (c : Option (List Char)) (m : Meta)
    (x : List Char) (y : Nat) :
    statusTrace [.updateDoc c (m ++ [("processingStatus", MetaVal.str x),
      ("processingProgress", MetaVal.num y)])] = [x] := by
  simp [statusTrace, writeStatus, getMeta_status_pair]

/-- Every status the batch loop stores is a `processed k of total chunks`
progress string. -/
theorem statusTrace_batchWrites (docId fileName fileType : List Char)
    (docMeta extMeta : Meta) (total : Nat) (chunkOk : Nat → Bool) :
    ∀ (bs : List (List (Nat × DocChunk))) (s : Nat),
      ∀ st ∈ statusTrace (batchWrites docId fileName fileType docMeta extMeta
        total chunkOk bs s), ∃ k, st = progressStatus k total := by
  intro bs
  induction bs with
  | nil => intro s st hst; simp [batchWrites, statusTrace] at hst
  | cons b bs ih =>
    intro s st hst
    rw [batchWrites, statusTrace_append, statusTrace_append,
      statusTrace_chunkInserts, statusTrace_single_progress] at hst
    simp only [List.nil_append, List.cons_append, List.mem_cons] at hst
    rcases hst with h | h
    · exact ⟨_, h⟩
    · exact ih (s + (b.filter (fun p => chunkOk p.1)).length) st
        (by simpa using h)

theorem getMeta_status_single (m : Meta) (x : MetaVal) :
    getMeta (m ++ [("processingStatus", x)]) "processingStatus" = some x :=
  getMeta_append_some m rfl

theorem getMeta_status_total (m : Meta) (x : MetaVal) (n : Nat) :
    getMeta (m ++ [("processingStatus", x), ("totalChunks", MetaVal.num n)])
      "processingStatus" = some x :=
  getMeta_append_some m rfl

theorem getMeta_status_final (m : Meta) (x : MetaVal) (p n sc : Nat)
    (ca : List Char) :
    getMeta (m ++ [("processingStatus", x), ("processingProgress", MetaVal.num p),
      ("totalChunks", MetaVal.num n), ("successfulChunks", MetaVal.num sc),
      ("completedAt", MetaVal.str ca)]) "processingStatus" = some x :=
  getMeta_append_some m rfl

/-- The status trace of the two upload writes. -/
theorem statusTrace_uploadWrites (title fileType fileName sanitized : List Char)
    (size : Nat) (uploadedAt fileUrl : List Char) :
    statusTrace (uploadWrites title fileType fileName sanitized size uploadedAt
      fileUrl) = ["pending".data, "uploaded".data] := rfl

/-- The status trace of a full handler run: the three fixed forward statuses,
the batch progress strings, and `complete`. -/
theorem statusTrace_ingestWrites (doc : DocRecord)
    (docId fileName fileType extText : List Char) (extMeta : Meta)
    (split : List Char → List (List Char)) (chunkOk : Nat → Bool)
    (ts : List Char) :
    statusTrace (ingestWrites doc docId fileName fileType extText extMeta
        split chunkOk ts)
      = "processing".data :: "chunking".data :: "embedding".data ::
        (statusTrace (batchWrites docId fileName fileType doc.metadata extMeta
            (processDocumentIntoChunks split (normalizeDocumentText extText)).length
            chunkOk
            (batches3 (processDocumentIntoChunks split
              (normalizeDocumentText extText)).enum) 0)
          ++ ["complete".data]) := by
  simp only [ingestWrites, statusTrace_append]
  simp only [statusTrace, List.filterMap_cons, List.filterMap_nil,
    writeStatus, getMeta_status_single, getMeta_status_total,
    getMeta_status_final]
  rfl

/-- C2 counterexample: a run over one chunk stores the status value
`processed 1 of 1 chunks`, which is outside the documented status
vocabulary. -/
theorem ingest_status_values_cex :
    "processed 1 of 1 chunks".data ∈ statusTrace (ingestWrites ⟨[], []⟩
      "d".data "f".data "txt".data "hi".data [] (fun t => [t])
      (fun _ => true) "TS".data)
    ∧ "processed 1 of 1 chunks".data ∉ allowedStatuses := by decide

/-- C2 (amended): throughout a run (upload plus handler success path), every
stored `processingStatus` is either one of the documented values or a
`processed k of total chunks` progress pseudo-status written after each
embedding batch; discarding the progress strings, the stored statuses are
exactly `pending, uploaded, processing, chunking, embedding, complete` in that
forward order — no regression, no skipped stage, no other value — and the
catch-all error write stores the status `error`. -/
theorem ingest_status_values_amended
    (title ftype fname sanitized : List Char) (size : Nat)
    (uploadedAt fileUrl : List Char) (doc : DocRecord)
    (docId fileName fileType extText : List Char) (extMeta : Meta)
    (split : List Char → List (List Char)) (chunkOk : Nat → Bool)
    (ts msg ets : List Char) :
    (∀ st ∈ statusTrace (uploadWrites title ftype fname sanitized size
          uploadedAt fileUrl
        ++ ingestWrites doc docId fileName fileType extText extMeta split
          chunkOk ts),
      st ∈ allowedStatuses ∨ ∃ k m, st = progressStatus k m)
    ∧ (statusTrace (uploadWrites title ftype fname sanitized size uploadedAt
          fileUrl
        ++ ingestWrites doc docId fileName fileType extText extMeta split
          chunkOk ts)).filter (fun st => decide (st ∈ allowedStatuses))
      = ["pending".data, "uploaded".data, "processing".data, "chunking".data,
         "embedding".data, "complete".data]
    ∧ writeStatus (errorCatchWrite msg ets) = some "error".data := by
  rw [statusTrace_append, statusTrace_uploadWrites, statusTrace_ingestWrites]
  refine ⟨?_, ?_, rfl⟩
  · intro st hst
    simp only [List.cons_append, List.nil_append, List.mem_cons,
      List.mem_append, List.mem_nil_iff, or_false] at hst
    rcases hst with rfl | rfl | rfl | rfl | rfl | (h | rfl)
    · exact Or.inl (by decide)
    · exact Or.inl (by decide)
    · exact Or.inl (by decide)
    · exact Or.inl (by decide)
    · exact Or.inl (by decide)
    · obtain ⟨k, rfl⟩ := statusTrace_batchWrites _ _ _ _ _ _ _ _ _ _ h
      exact Or.inr ⟨k, _, rfl⟩
    · exact Or.inl (by decide)
  · have hbatch : (statusTrace (batchWrites docId fileName fileType
        doc.metadata extMeta
        (processDocumentIntoChunks split (normalizeDocumentText extText)).length
        chunkOk
        (batches3 (processDocumentIntoChunks split
          (normalizeDocumentText extText)).enum) 0)).filter
        (fun st => decide (st ∈ allowedStatuses)) = [] := by
      rw [List.filter_eq_nil_iff]
      intro st hst
      obtain ⟨k, rfl⟩ := statusTrace_batchWrites _ _ _ _ _ _ _ _ _ _ hst
      simpa using progressStatus_not_allowed k _
    have hA : (["pending".data, "uploaded".data]).filter
        (fun st => decide (st ∈ allowedStatuses))
        = ["pending".data, "uploaded".data] := by decide
    have hC : (["complete".data]).filter
        (fun st => decide (st ∈ allowedStatuses)) = ["complete".data] := by
      decide
    rw [List.filter_append, hA, List.filter_cons_of_pos (by decide),
      List.filter_cons_of_pos (by decide), List.filter_cons_of_pos (by decide),
      List.filter_append, hbatch, hC]
    simp

/-- C2 witness: in the concrete one-chunk run, the stored progress value
`processed 1 of 1 chunks` is recognised by the amended statement as a
progress pseudo-status (it is not a documented value). -/
theorem ingest_status_values_amended_witness :
    "processed 1 of 1 chunks".data ∈ allowedStatuses
    ∨ ∃ k m, "processed 1 of 1 chunks".data = progressStatus k m :=
  (ingest_status_values_amended "t".data "txt".data "f".data "f".data 3
      "U".data "url".data ⟨[], []⟩ "d".data "f".data "txt".data "hi".data []
      (fun t => [t]) (fun _ => true) "TS".data "m".data "E".data).1
    "processed 1 of 1 chunks".data (by decide)

/-- C1 witness: the amended statement at a concrete already-complete
document — the first two writes reset the status and overwrite the content. -/
theorem ingest_reprocesses_amended_witness :
    (ingestWrites ⟨"old".data, [("processingStatus", .str "complete".data)]⟩
        "d".data "f".data "txt".data "hi".data [] (fun t => [t])
        (fun _ => true) "TS".data).take 2
      = [.updateDoc none ([("processingStatus", .str "complete".data)]
          ++ [("processingStatus", .str "processing".data)]),
         .updateDoc (some (normalizeDocumentText "hi".data))
          ([("processingStatus", .str "complete".data)] ++ []
            ++ [("processingStatus", .str "chunking".data)])] :=
  ingest_reprocesses_amended
    ⟨"old".data, [("processingStatus", .str "complete".data)]⟩
    "d".data "f".data "txt".data "hi".data [] (fun t => [t])
    (fun _ => true) "TS".data

/-- C5 witness: the amended statement at concrete inputs — the returned
citation list is the (empty) citation list unchanged. -/
theorem chat_citations_amended_witness :
    (chatReturn [] "x".data).2 = [] :=
  chat_citations_amended.1 [] "x".data

end SupabaseRag
